import Mathlib

/-!
# Verification of the Stratum proxy core (`proxy/stratum.go`)

A shallow embedding of the session / protocol core of the mining-pool
proxy: the per-connection read-dispatch loop (`handleTCPClient`), the
JSON-RPC method dispatch (`handleTCPMessage`), the reply primitives
(`sendTCPResult`, `sendTCPError`, `pushNewJob`), the session registry
(`removeSession`) and the job broadcaster (`broadcastNewJobs`).

External collaborators (the policy gateway, the RPC business handlers,
`encoding/json` and the transport encoder) are modelled as oracle
functions bundled in an `Env`; the embedding records their invocations
and the messages handed to the encoder as an explicit action trace.

Go's `error` values are modelled by `Option GoErr` (`none` = `nil`).
Time is modelled by a `Nat` clock; a connection deadline is the `Nat`
instant `now + timeout`.
-/

namespace Stratum

/-- `stratum.go` line 16: `MaxReqSize = 1024`, the line-framing bound. -/
def MaxReqSize : Nat := 1024

/-- A non-nil Go `error` value, carried by its message
(`errors.New(reply.Message)` builds one from a string). -/
structure GoErr where
  message : String
deriving DecidableEq, Repr

/-- Modelled from the spec: the structured RPC error reply
(`*ErrorReply`, declared outside `stratum.go`): an error envelope body
`{code, message}` (spec section 3, "Response / Notification"). -/
structure ErrorReply where
  code : Int
  message : String
deriving DecidableEq, Repr

/-- The JSON values this layer serialises: `nil`, booleans
(`eth_submitHashrate`'s `true`, submit replies), strings and string
arrays (`eth_getWork` replies, the broadcast payload
`[]string{t.Header, t.Seed, stratum.diff}`). -/
inductive JsonVal where
  | null
  | bool (b : Bool)
  | str (s : String)
  | strs (xs : List String)
deriving DecidableEq, Repr

/-- Modelled from the spec: the response envelope `JSONRpcResp`
(declared outside `stratum.go`): `{id, jsonrpc, error, result}` with the
request identifier kept as raw JSON and echoed verbatim (spec sections
3 and 6). `id` holds the raw bytes of the identifier. -/
structure JSONRpcResp where
  id : String
  version : String
  error : Option ErrorReply
  result : Option JsonVal
deriving DecidableEq, Repr

/-- Modelled from the spec: the broadcast notification envelope
`JSONPushMessage` (declared outside `stratum.go`):
`{jsonrpc:"2.0", result, id:0}` (spec sections 3 and 6, and the FIXME
comment at `stratum.go` line 157). -/
structure JSONPushMessage where
  version : String
  result : JsonVal
  id : Nat
deriving DecidableEq, Repr

/-- One message handed to the session's JSON encoder (`cs.enc.Encode`). -/
inductive Msg where
  | resp (r : JSONRpcResp)
  | push (p : JSONPushMessage)
deriving DecidableEq, Repr

/-- Modelled from the spec: the Session fields this file reads
(`Session` is declared outside `stratum.go`): owning endpoint index
`s_id`, remote `ip`, last-known `login` (spec section 3, "Session"). The
transport handle and encoder are modelled by the `Env` oracles. -/
structure Session where
  s_id : Nat
  ip : String
  login : String
deriving DecidableEq, Repr

/-- Modelled from the spec: the decoded request `StratumReq` (declared
outside `stratum.go`): `{id, method, params, worker}` where `id` and
`params` are raw JSON (spec sections 3 and 6). -/
structure StratumReq where
  id : String
  method : String
  params : String
  worker : String
deriving DecidableEq, Repr

/-- The outcome of one `connbuff.ReadLine()` call (`stratum.go` line 72).
`flood` models the oversized-line case: `bufio.Reader.ReadLine` reports
it with the second result `true` and a `nil` error (it converts
`ErrBufferFull`), so in that branch the `err` the code returns is `nil`.
`line data` is a complete line at or under `MaxReqSize` with a `nil`
error; `eof` is `io.EOF`; `readErr` any other read error. -/
inductive ReadEvent where
  | line (data : String)
  | flood
  | eof
  | readErr (e : GoErr)
deriving DecidableEq, Repr

/-- The observable actions of the session handler, in program order:
deadline renewal (`s.setDeadline`), policy-gateway calls
(`s.policy.BanClient`, `s.policy.ApplyMalformedPolicy`), registry
removal (`s.removeSession`), and each message handed to the encoder. -/
inductive Action where
  | setDeadline
  | banClient (ip : String)
  | applyMalformed (ip : String)
  | removeSession
  | send (m : Msg)
deriving DecidableEq, Repr

/-- The external collaborators, as oracles: `encoding/json` decoding
(`unmarshalReq` for `json.Unmarshal(data, &req)`, `unmarshalStrings`
for `json.Unmarshal(req.Params, &params)` into `[]string`), the RPC
business handlers (which may replace the session state they mutate),
and the session's transport encoder (`enc.Encode`, returning the write
error). -/
structure Env where
  unmarshalReq : String → Except GoErr StratumReq
  unmarshalStrings : String → Except GoErr (List String)
  handleLoginRPC : Session → List String → String → Session × Except ErrorReply JsonVal
  handleGetWorkRPC : Session → Session × Except ErrorReply JsonVal
  handleTCPSubmitRPC : Session → String → List String → Session × Except ErrorReply JsonVal
  handleUnknownRPC : Session → String → ErrorReply
  encode : Msg → Option GoErr

/-- `stratum.go` lines 146-152, `sendTCPResult`: encode the envelope
`{Id: id, Version: "2.0", Error: nil, Result: result}` and return the
encoder's error. Yields the message handed to the encoder and the Go
return value. -/
def sendTCPResult (env : Env) (id : String) (result : JsonVal) : Msg × Option GoErr :=
  let message : JSONRpcResp := { id := id, version := "2.0", error := none, result := some result }
  (Msg.resp message, env.encode (Msg.resp message))

/-- `stratum.go` lines 162-172, `sendTCPError`: encode the envelope
`{Id: id, Version: "2.0", Error: reply}` (no result); if the encoder
fails return its error, otherwise return `errors.New(reply.Message)` —
a non-nil error either way. -/
def sendTCPError (env : Env) (id : String) (reply : ErrorReply) : Msg × Option GoErr :=
  let message : JSONRpcResp := { id := id, version := "2.0", error := some reply, result := none }
  match env.encode (Msg.resp message) with
  | some e => (Msg.resp message, some e)
  | none => (Msg.resp message, some ⟨reply.message⟩)

/-- `stratum.go` lines 154-160, `pushNewJob`: encode the notification
`{Version: "2.0", Result: result, Id: 0}` on the given session encoder
and return the encoder's error. -/
def pushNewJob (enc : Msg → Option GoErr) (result : JsonVal) : Msg × Option GoErr :=
  let message : JSONPushMessage := { version := "2.0", result := result, id := 0 }
  (Msg.push message, enc (Msg.push message))

/-- `stratum.go` lines 104-144, `handleTCPMessage`: dispatch one decoded
request by method name. Returns the (possibly handler-mutated) session,
the messages handed to the encoder, and the Go error result. -/
def handleTCPMessage (env : Env) (cs : Session) (req : StratumReq) :
    Session × List Msg × Option GoErr :=
  match req.method with
  | "eth_submitLogin" | "eth_login" =>
    match env.unmarshalStrings req.params with
    | .error e => (cs, [], some e)
    | .ok params =>
      match env.handleLoginRPC cs params req.worker with
      | (cs2, .error errReply) =>
        let (m, r) := sendTCPError env req.id errReply
        (cs2, [m], r)
      | (cs2, .ok reply) =>
        let (m, r) := sendTCPResult env req.id reply
        (cs2, [m], r)
  | "eth_getWork" =>
    match env.handleGetWorkRPC cs with
    | (cs2, .error errReply) =>
      let (m, r) := sendTCPError env req.id errReply
      (cs2, [m], r)
    | (cs2, .ok reply) =>
      let (m, r) := sendTCPResult env req.id reply
      (cs2, [m], r)
  | "eth_submitWork" =>
    match env.unmarshalStrings req.params with
    | .error e => (cs, [], some e)
    | .ok params =>
      match env.handleTCPSubmitRPC cs req.worker params with
      | (cs2, .error errReply) =>
        let (m, r) := sendTCPError env req.id errReply
        (cs2, [m], r)
      | (cs2, .ok reply) =>
        let (m, r) := sendTCPResult env req.id reply
        (cs2, [m], r)
  | "eth_submitHashrate" =>
    let (m, r) := sendTCPResult env req.id (JsonVal.bool true)
    (cs, [m], r)
  | _ =>
    let errReply := env.handleUnknownRPC cs req.method
    let (m, r) := sendTCPError env req.id errReply
    (cs, [m], r)

/-- One iteration of the `handleTCPClient` read loop (`stratum.go` lines
71-99) on one read outcome: either the loop continues with the session
state and the actions of this iteration, or it stops (`return`/`break`)
with the actions and the function's Go result. -/
inductive StepOut where
  | cont (cs2 : Session) (acts : List Action)
  | stop (acts : List Action) (ret : Option GoErr)
deriving Repr

/-- The body of the `for` loop of `handleTCPClient` for one read event:
flood bans the IP and returns the (nil) read error; EOF removes the
session and breaks (return nil); another read error is returned; a line
longer than one byte is decoded (failure: malformed policy, return the
error), and on success the deadline is renewed (`stratum.go` line 94)
before dispatch, whose messages and error follow; a line of at most one
byte is ignored. -/
def step (env : Env) (cs : Session) : ReadEvent → StepOut
  | ReadEvent.flood => StepOut.stop [Action.banClient cs.ip] none
  | ReadEvent.eof => StepOut.stop [Action.removeSession] none
  | ReadEvent.readErr e => StepOut.stop [] (some e)
  | ReadEvent.line data =>
    if data.length > 1 then
      match env.unmarshalReq data with
      | .error e => StepOut.stop [Action.applyMalformed cs.ip] (some e)
      | .ok req =>
        let (cs2, msgs, ret) := handleTCPMessage env cs req
        let acts := Action.setDeadline :: msgs.map Action.send
        match ret with
        | some e => StepOut.stop acts (some e)
        | none => StepOut.cont cs2 acts
    else StepOut.cont cs []

/-- What one run of the session handler did: the ordered action trace,
the Go error it returned (`none` = `nil`), and how many read events it
consumed before returning. -/
structure ClientResult where
  trace : List Action
  ret : Option GoErr
  consumed : Nat
deriving DecidableEq, Repr

/-- The `for` loop of `handleTCPClient` over a finite schedule of read
outcomes. An exhausted schedule models a reader still blocked in
`ReadLine`; it is rendered as a clean stop so the function is total. -/
def clientLoop (env : Env) (cs : Session) : List ReadEvent → ClientResult
  | [] => ⟨[], none, 0⟩
  | ev :: rest =>
    match step env cs ev with
    | StepOut.stop acts ret => ⟨acts, ret, 1⟩
    | StepOut.cont cs2 acts =>
      let r := clientLoop env cs2 rest
      ⟨acts ++ r.trace, r.ret, r.consumed + 1⟩

/-- `stratum.go` lines 66-102, `handleTCPClient`: renew the deadline on
entry (line 69) and run the read loop. -/
def handleTCPClient (env : Env) (cs : Session) (evs : List ReadEvent) : ClientResult :=
  let r := clientLoop env cs evs
  ⟨Action.setDeadline :: r.trace, r.ret, r.consumed⟩

/-- `ListenTCP` lines 56-60: when the spawned handler returns, the
admission loop removes the session and closes the transport if and only
if the handler's returned error is non-nil. -/
def loopClosesConn (ret : Option GoErr) : Bool := ret.isSome

/-- `ListenTCP` lines 56-60: the admission loop's `removeSession` call
happens under the same non-nil-error condition as the close. -/
def loopRemovesSession (ret : Option GoErr) : Bool := ret.isSome

/-- The actions of one loop iteration, whether it stops or continues. -/
def stepActs (env : Env) (cs : Session) (ev : ReadEvent) : List Action :=
  match step env cs ev with
  | StepOut.stop acts _ => acts
  | StepOut.cont _ acts => acts

/-- A session as a registry element: its identity (the Go map keys the
`sessions` set by the `*Session` pointer) together with the endpoint
index `s_id` the session carries. -/
structure SessionRef where
  sid : Nat
  s_id : Nat
deriving DecidableEq, Repr

/-- The per-endpoint registries `s.stratum[i].sessions`, endpoint `i`'s
member set at position `i`. -/
def Registry := List (List SessionRef)

/-- The member set of endpoint `e` (`s.stratum[e].sessions`). -/
def Registry.members (st : Registry) (e : Nat) : List SessionRef :=
  List.getD st e []

/-- `stratum.go` lines 178-183, `registerSession`: insert `cs` into its
endpoint's set (map insert: a no-op on an existing key). -/
def registerSession (st : Registry) (cs : SessionRef) : Registry :=
  List.set st cs.s_id
    (if cs ∈ st.members cs.s_id then st.members cs.s_id else cs :: st.members cs.s_id)

/-- `stratum.go` lines 185-190, `removeSession`: delete `cs` from its
own endpoint's set (`delete(stratum.sessions, cs)`); other endpoints are
untouched. -/
def removeSession (st : Registry) (cs : SessionRef) : Registry :=
  List.set st cs.s_id ((st.members cs.s_id).filter (fun x => x ≠ cs))

/-- Modelled from the spec: the block template fields this file reads
(`BlockTemplate` is declared outside `stratum.go`): the `Header` and
`Seed` strings of the current job (spec section 6, block-template
source). -/
structure BTemplate where
  header : String
  seed : String
deriving DecidableEq, Repr

/-- The state one broadcast cycle updates: one endpoint's member list
and the deadline (a `Nat` instant) of every session. -/
def BcastState := List SessionRef × (SessionRef → Nat)

/-- The body of the fan-out loop of `broadcastNewJobs` (`stratum.go`
lines 217-226) for one member `m`: on push failure remove `m` from the
endpoint's set; on success renew `m`'s deadline to `now + timeout`
(`setDeadline`, lines 174-176). -/
def bcastStep (push : SessionRef → Option GoErr) (now timeout : Nat)
    (st : BcastState) (m : SessionRef) : BcastState :=
  match push m with
  | some _ => (st.1.filter (fun x => x ≠ m), st.2)
  | none => (st.1, fun x => if x = m then now + timeout else st.2 x)

/-- The outcome of `cs.pushNewJob(&reply)` for member `m`: the error of
encoding the notification envelope on `m`'s encoder. -/
def bcastPush (encodeOf : SessionRef → Msg → Option GoErr) (reply : JsonVal)
    (m : SessionRef) : Option GoErr :=
  (pushNewJob (encodeOf m) reply).2

/-- `stratum.go` lines 192-229, `broadcastNewJobs` for one endpoint:
skip silently when there is no template, its header is empty, or the
service is sick (line 196); otherwise push
`[]string{t.Header, t.Seed, diff}` to every member of the endpoint's
set, removing members whose push fails and renewing the deadline of
those whose push succeeds. Removals through `s.removeSession` block on
the registry lock until the enumeration's read lock is released, so the
enumeration sees the whole snapshot `reg`; the per-member updates
commute, rendered as a left fold over the snapshot. -/
def broadcastNewJobs (tmpl : Option BTemplate) (sick : Bool) (diff : String)
    (encodeOf : SessionRef → Msg → Option GoErr) (now timeout : Nat)
    (reg : List SessionRef) (dl : SessionRef → Nat) : BcastState :=
  match tmpl with
  | none => (reg, dl)
  | some t =>
    if t.header = "" ∨ sick then (reg, dl)
    else
      let reply := JsonVal.strs [t.header, t.seed, diff]
      reg.foldl (bcastStep (bcastPush encodeOf reply) now timeout) (reg, dl)

/-- The precondition under which a broadcast cycle runs (`stratum.go`
line 196 negated). -/
def broadcastRuns (tmpl : Option BTemplate) (sick : Bool) : Prop :=
  ∃ t, tmpl = some t ∧ t.header ≠ "" ∧ sick = false

/-- Whether an action is a message handed to the encoder (a Response or
notification on the wire). -/
def isSendAction : Action → Bool
  | Action.send _ => true
  | _ => false

/-- The read outcomes after which the loop renews the deadline: exactly
the lines longer than one byte that decode as a request (`stratum.go`
line 94); used to state the deadline-renewal claim. -/
def renewsDeadline (env : Env) : ReadEvent → Bool
  | ReadEvent.line data =>
    if data.length > 1 then
      match env.unmarshalReq data with
      | Except.ok _ => true
      | Except.error _ => false
    else false
  | _ => false

/-! ## Concrete evaluation material: oracle environments and states used
to evaluate the model at explicit inputs. -/

/-- A session as admitted on endpoint 0 from a concrete address. -/
def csW : Session := ⟨0, "203.0.113.7", ""⟩

/-- A decoded request with an unknown method name. -/
def reqUnknown : StratumReq := ⟨"1", "eth_foo", "[]", ""⟩

/-- A decoded login request whose `params` payload is not an array of
strings. -/
def reqBadLogin : StratumReq := ⟨"1", "eth_submitLogin", "xyz", ""⟩

/-- A decoded `eth_submitHashrate` request. -/
def reqHashrate : StratumReq := ⟨"1", "eth_submitHashrate", "[]", ""⟩

/-- A decoded login request with well-formed parameters. -/
def reqLogin : StratumReq := ⟨"7", "eth_submitLogin", "[\x220xabc\x22]", "w1"⟩

/-- A baseline oracle environment: JSON decoding of lines and of
parameter arrays fails, the business handlers answer successfully, the
unknown-method handler returns the usual reply, and every encoder write
succeeds. -/
def envBase : Env where
  unmarshalReq := fun _ => Except.error ⟨"invalid character"⟩
  unmarshalStrings := fun _ => Except.error ⟨"cannot unmarshal"⟩
  handleLoginRPC := fun cs _ _ => (cs, Except.ok (JsonVal.bool true))
  handleGetWorkRPC := fun cs => (cs, Except.ok (JsonVal.strs ["0xh", "0xs", "0xd"]))
  handleTCPSubmitRPC := fun cs _ _ => (cs, Except.ok (JsonVal.bool true))
  handleUnknownRPC := fun _ _ => ⟨-3, "Method not found"⟩
  encode := fun _ => none

/-- `envBase` with every line decoding to the unknown-method request. -/
def envUnknown : Env := { envBase with unmarshalReq := fun _ => Except.ok reqUnknown }

/-- `envBase` with every line decoding to a login request whose
parameters fail to decode. -/
def envBadParams : Env := { envBase with unmarshalReq := fun _ => Except.ok reqBadLogin }

/-- `envBase` with working parameter decoding, for evaluating the
dispatch of well-formed requests. -/
def envOk : Env :=
  { envBase with
    unmarshalReq := fun _ => Except.ok reqLogin
    unmarshalStrings := fun _ => Except.ok ["0xabc"] }

/-- `envOk` with every business handler and the request decoder
replaced (the encoder kept), for checking that `eth_submitHashrate`
consults none of them. -/
def envAlt : Env :=
  { unmarshalReq := fun _ => Except.error ⟨"other"⟩
    unmarshalStrings := fun _ => Except.error ⟨"other"⟩
    handleLoginRPC := fun cs _ _ => (⟨cs.s_id, cs.ip, "mutated"⟩, Except.error ⟨-1, "denied"⟩)
    handleGetWorkRPC := fun cs => (cs, Except.error ⟨-1, "no work"⟩)
    handleTCPSubmitRPC := fun cs _ _ => (cs, Except.error ⟨-1, "rejected"⟩)
    handleUnknownRPC := fun _ _ => ⟨-9, "other reply"⟩
    encode := envOk.encode }

/-- A two-member snapshot of endpoint 0's registry. -/
def regW : List SessionRef := [⟨0, 0⟩, ⟨1, 0⟩]

/-- Every deadline was last set at instant 2 with timeout 3. -/
def dlW : SessionRef → Nat := fun _ => 5

/-- A per-session encoder where session 1's transport is broken and
every other write succeeds. -/
def encW : SessionRef → Msg → Option GoErr :=
  fun s _ => if s.sid = 1 then some ⟨"broken pipe"⟩ else none

/-- A registry with two endpoints for evaluating `removeSession`. -/
def regsW : Registry := [[⟨0, 0⟩, ⟨1, 0⟩], [⟨2, 1⟩]]

/-! ## Fan-out lemmas: the fold of `bcastStep` over the snapshot. -/

/-- A fan-out step never adds a member: the final member list is
contained in the accumulator's. -/
theorem bcast_foldl_subset (push : SessionRef → Option GoErr) (now timeout : Nat) :
    ∀ (l : List SessionRef) (st : BcastState) (x : SessionRef),
      x ∈ (l.foldl (bcastStep push now timeout) st).1 → x ∈ st.1 := by
  intro l
  induction l with
  | nil => intro st x h; exact h
  | cons m l ih =>
    intro st x h
    have h2 := ih (bcastStep push now timeout st m) x h
    unfold bcastStep at h2
    cases hp : push m with
    | some e => rw [hp] at h2; exact List.mem_of_mem_filter h2
    | none => rw [hp] at h2; exact h2

/-- A member whose push succeeds is never filtered out by the fold. -/
theorem bcast_mem_of_ok (push : SessionRef → Option GoErr) (now timeout : Nat) :
    ∀ (l : List SessionRef) (st : BcastState) (x : SessionRef),
      push x = none → x ∈ st.1 → x ∈ (l.foldl (bcastStep push now timeout) st).1 := by
  intro l
  induction l with
  | nil => intro st x _ hx; exact hx
  | cons m l ih =>
    intro st x hok hx
    apply ih
    · exact hok
    · unfold bcastStep
      cases hp : push m with
      | some e =>
        apply List.mem_filter.mpr
        refine ⟨hx, ?_⟩
        have hne : x ≠ m := by
          intro he; rw [he, hp] at hok; exact Option.noConfusion hok
        simpa using hne
      | none => exact hx

/-- A member of the snapshot whose push fails is absent from the final
member list. -/
theorem bcast_not_mem_of_err (push : SessionRef → Option GoErr) (now timeout : Nat) :
    ∀ (l : List SessionRef) (st : BcastState) (x : SessionRef),
      (push x).isSome → x ∈ l → x ∉ (l.foldl (bcastStep push now timeout) st).1 := by
  intro l
  induction l with
  | nil => intro st x _ hx; cases hx
  | cons m l ih =>
    intro st x herr hx hmem
    rw [List.foldl_cons] at hmem
    rcases List.mem_cons.mp hx with he | ht
    · by_cases hl : x ∈ l
      · exact ih (bcastStep push now timeout st m) x herr hl hmem
      · have hsub := bcast_foldl_subset push now timeout l (bcastStep push now timeout st m) x hmem
        unfold bcastStep at hsub
        cases hp : push m with
        | some e =>
          rw [hp] at hsub
          have h2 := (List.mem_filter.mp hsub).2
          simp [he] at h2
        | none => rw [he, hp] at herr; simp [Option.isSome] at herr
    · exact ih (bcastStep push now timeout st m) x herr ht hmem

/-- Once the accumulator records `x`'s deadline as `now + timeout`, the
rest of the fold keeps it there. -/
theorem bcast_dl_preserved (push : SessionRef → Option GoErr) (now timeout : Nat) :
    ∀ (l : List SessionRef) (st : BcastState) (x : SessionRef),
      st.2 x = now + timeout →
      (l.foldl (bcastStep push now timeout) st).2 x = now + timeout := by
  intro l
  induction l with
  | nil => intro st x h; exact h
  | cons m l ih =>
    intro st x h
    rw [List.foldl_cons]
    apply ih
    show (bcastStep push now timeout st m).2 x = now + timeout
    unfold bcastStep
    cases hp : push m with
    | some e => exact h
    | none =>
      by_cases hx : x = m
      · simp [hx]
      · simp [hx, h]

/-- A member of the snapshot whose push succeeds ends with its deadline
renewed to `now + timeout`. -/
theorem bcast_dl_of_ok (push : SessionRef → Option GoErr) (now timeout : Nat) :
    ∀ (l : List SessionRef) (st : BcastState) (x : SessionRef),
      push x = none → x ∈ l →
      (l.foldl (bcastStep push now timeout) st).2 x = now + timeout := by
  intro l
  induction l with
  | nil => intro st x _ hx; cases hx
  | cons m l ih =>
    intro st x hok hx
    rw [List.foldl_cons]
    rcases List.mem_cons.mp hx with he | ht
    · apply bcast_dl_preserved
      show (bcastStep push now timeout st m).2 x = now + timeout
      unfold bcastStep
      rw [← he, hok]
      simp [he]
    · exact ih (bcastStep push now timeout st m) x hok ht

/-- A session whose push fails keeps its old deadline: the fold never
touches the deadline of a failing session. -/
theorem bcast_dl_of_err (push : SessionRef → Option GoErr) (now timeout : Nat) :
    ∀ (l : List SessionRef) (st : BcastState) (x : SessionRef),
      (push x).isSome →
      (l.foldl (bcastStep push now timeout) st).2 x = st.2 x := by
  intro l
  induction l with
  | nil => intro st x _; rfl
  | cons m l ih =>
    intro st x herr
    rw [List.foldl_cons, ih (bcastStep push now timeout st m) x herr]
    unfold bcastStep
    cases hp : push m with
    | some e => rfl
    | none =>
      have hx : x ≠ m := by
        intro he; rw [he, hp] at herr; simp [Option.isSome] at herr
      simp [hx]

/-- A deadline the fold changed belongs to a member of the snapshot
whose push succeeded, and the new value is `now + timeout`. -/
theorem bcast_dl_changed (push : SessionRef → Option GoErr) (now timeout : Nat) :
    ∀ (l : List SessionRef) (st : BcastState) (x : SessionRef),
      (l.foldl (bcastStep push now timeout) st).2 x ≠ st.2 x →
      push x = none ∧ x ∈ l ∧
        (l.foldl (bcastStep push now timeout) st).2 x = now + timeout := by
  intro l
  induction l with
  | nil => intro st x h; exact absurd rfl h
  | cons m l ih =>
    intro st x h
    rw [List.foldl_cons] at h ⊢
    by_cases hst : (l.foldl (bcastStep push now timeout) (bcastStep push now timeout st m)).2 x
        = (bcastStep push now timeout st m).2 x
    · have hch : (bcastStep push now timeout st m).2 x ≠ st.2 x := by
        intro he; exact h (by rw [hst, he])
      unfold bcastStep at hch
      cases hp : push m with
      | some e => rw [hp] at hch; exact absurd rfl hch
      | none =>
        rw [hp] at hch
        by_cases hx : x = m
        · refine ⟨by rw [hx]; exact hp, by rw [hx]; exact List.mem_cons_self m l, ?_⟩
          rw [hst]
          show (bcastStep push now timeout st m).2 x = now + timeout
          unfold bcastStep
          rw [hp]
          simp [hx]
        · simp [hx] at hch
    · have h3 := ih (bcastStep push now timeout st m) x hst
      exact ⟨h3.1, List.mem_cons_of_mem m h3.2.1, h3.2.2⟩

/-! ## Registry lemmas: `List.set` / `List.getD` facts used for
`removeSession`. -/

/-- Reading back the position just written: the new value in range,-
the default out of range. -/
theorem getD_set_self (l : List (List SessionRef)) :
    ∀ (i : Nat) (a : List SessionRef),
      (l.set i a).getD i [] = if i < l.length then a else [] := by
  induction l with
  | nil => intro i a; cases i <;> simp [List.getD]
  | cons h t ih =>
    intro i a
    cases i with
    | zero => simp [List.getD]
    | succ j => simpa [List.getD] using ih j a

/-- Writing one position leaves every other position's read unchanged. -/
theorem getD_set_ne (l : List (List SessionRef)) :
    ∀ (i j : Nat) (a : List SessionRef), i ≠ j →
      (l.set i a).getD j [] = l.getD j [] := by
  induction l with
  | nil => intro i j a _; simp
  | cons h t ih =>
    intro i j a hne
    cases i with
    | zero =>
      cases j with
      | zero => exact absurd rfl hne
      | succ k => simp [List.getD]
    | succ i2 =>
      cases j with
      | zero => simp [List.getD]
      | succ k => simpa [List.getD] using ih i2 k a (by omega)

/-- Writing back the value just read is the identity. -/
theorem set_getD_self (l : List (List SessionRef)) :
    ∀ (i : Nat), l.set i (l.getD i []) = l := by
  induction l with
  | nil => intro i; simp
  | cons h t ih =>
    intro i
    cases i with
    | zero => simp [List.getD]
    | succ j => simpa [List.getD] using ih j

/-- Writing past the end of the list is a no-op. -/
theorem set_oob (l : List (List SessionRef)) :
    ∀ (i : Nat) (a : List SessionRef), l.length ≤ i → l.set i a = l := by
  induction l with
  | nil => intro i a _; simp
  | cons h t ih =>
    intro i a hle
    cases i with
    | zero => simp at hle
    | succ j => simpa using ih j a (by simpa using hle)

/-- C10: `removeSession` is total and idempotent: it empties exactly the
removed session's membership in its own endpoint's set, leaves every
other membership (same endpoint and all others) unchanged, removing
twice equals removing once, and removing a non-member changes nothing. -/
theorem removeSession_exact_frame_idempotent (st : Registry) (cs : SessionRef) :
    cs ∉ (removeSession st cs).members cs.s_id ∧
    (∀ (e : Nat) (x : SessionRef), x ≠ cs →
      (x ∈ (removeSession st cs).members e ↔ x ∈ st.members e)) ∧
    (∀ e : Nat, e ≠ cs.s_id → (removeSession st cs).members e = st.members e) ∧
    removeSession (removeSession st cs) cs = removeSession st cs ∧
    (cs ∉ st.members cs.s_id → removeSession st cs = st) := by
  have hown : (removeSession st cs).members cs.s_id
      = if cs.s_id < st.length then (st.members cs.s_id).filter (fun x => x ≠ cs) else [] := by
    unfold removeSession Registry.members
    exact getD_set_self st cs.s_id ((st.members cs.s_id).filter (fun x => x ≠ cs))
  have hoobmem : ¬ cs.s_id < st.length → st.members cs.s_id = [] := by
    intro hge
    unfold Registry.members
    exact List.getD_eq_default _ _ (by omega)
  refine ⟨?_, ?_, ?_, ?_, ?_⟩
  · rw [hown]
    by_cases hi : cs.s_id < st.length
    · rw [if_pos hi]
      intro hmem
      have h2 := (List.mem_filter.mp hmem).2
      simp at h2
    · rw [if_neg hi]
      simp
  · intro e x hx
    by_cases he : e = cs.s_id
    · rw [he, hown]
      by_cases hi : cs.s_id < st.length
      · rw [if_pos hi]
        constructor
        · intro hmem; exact (List.mem_filter.mp hmem).1
        · intro hmem; exact List.mem_filter.mpr ⟨hmem, by simpa using hx⟩
      · rw [if_neg hi, hoobmem hi]
    · have hq : (removeSession st cs).members e = st.members e := by
        unfold removeSession Registry.members
        exact getD_set_ne st cs.s_id e _ (fun h => he h.symm)
      rw [hq]
  · intro e he
    unfold removeSession Registry.members
    exact getD_set_ne st cs.s_id e _ (fun h => he h.symm)
  · have hmem2 := hown
    unfold removeSession
    unfold removeSession at hmem2
    rw [hmem2]
    by_cases hi : cs.s_id < st.length
    · rw [if_pos hi, List.filter_filter, List.set_set]
      have hff : (fun x => decide (x ≠ cs) && decide (x ≠ cs)) = (fun x => decide (x ≠ cs)) := by
        funext x
        cases h : decide (x ≠ cs) <;> simp [h]
      rw [hff]
    · rw [if_neg hi, List.set_set]
      rw [set_oob st cs.s_id _ (by omega), set_oob st cs.s_id _ (by omega)]
  · intro hnm
    unfold removeSession
    have hfs : (st.members cs.s_id).filter (fun x => x ≠ cs) = st.members cs.s_id := by
      apply List.filter_eq_self.mpr
      intro a ha
      have hne : a ≠ cs := fun he => hnm (he ▸ ha)
      simp [hne]
    rw [hfs]
    exact set_getD_self st cs.s_id

/-- C3: evaluating the handler on a connection whose read reports an
oversized line (`bufio.ReadLine` with a full buffer: second result
`true`, error `nil`): the IP is banned and nothing further is processed,
but `return err` returns the `nil` read error, so the admission loop
(`ListenTCP` lines 56-60) neither removes the session nor closes the
connection — the code diverges from the specified close-on-flood. -/
theorem flood_bans_without_close (env : Env) (cs : Session) (rest : List ReadEvent) :
    handleTCPClient env cs (ReadEvent.flood :: rest) =
      ⟨[Action.setDeadline, Action.banClient cs.ip], none, 1⟩ ∧
    loopClosesConn (handleTCPClient env cs (ReadEvent.flood :: rest)).ret = false ∧
    loopRemovesSession (handleTCPClient env cs (ReadEvent.flood :: rest)).ret = false := by
  exact ⟨rfl, rfl, rfl⟩

/-- C7 counterexample: on a clean EOF the handler removes the session
and returns `nil`, but precisely because it returns `nil` the admission
loop's close (`conn.Close()`, `ListenTCP` line 59 — the only close on
the handler path) never runs: the claim's "the transport is closed" is
false at this input. -/
theorem eof_close_counterexample :
    handleTCPClient envBase csW [ReadEvent.eof] =
      ⟨[Action.setDeadline, Action.removeSession], none, 1⟩ ∧
    loopClosesConn (handleTCPClient envBase csW [ReadEvent.eof]).ret = false := by
  exact ⟨rfl, rfl⟩

/-- C7 as amended: on a clean EOF the session is removed from its
endpoint's registry and the handler returns success (`nil`), EOF is not
propagated as a failure; the transport is not closed on this path (the
admission loop closes only on a non-nil handler error). -/
theorem eof_removes_session_returns_success (env : Env) (cs : Session) (rest : List ReadEvent) :
    clientLoop env cs (ReadEvent.eof :: rest) = ⟨[Action.removeSession], none, 1⟩ ∧
    loopClosesConn (clientLoop env cs (ReadEvent.eof :: rest)).ret = false ∧
    loopRemovesSession (clientLoop env cs (ReadEvent.eof :: rest)).ret = false := by
  exact ⟨rfl, rfl, rfl⟩

/-- Evaluation helper: `sendTCPError` emits the error envelope and its
result is never `nil`. -/
theorem sendTCPError_eval (env : Env) (id : String) (reply : ErrorReply) :
    (sendTCPError env id reply).1 = Msg.resp ⟨id, "2.0", some reply, none⟩ ∧
    ((sendTCPError env id reply).2).isSome = true := by
  unfold sendTCPError
  cases h : env.encode (Msg.resp ⟨id, "2.0", some reply, none⟩) with
  | some e => simp [h]
  | none => simp [h]

/-- C5: `sendTCPError` hands the envelope `{id, version "2.0",
error: reply}` to the encoder and never returns success: when the write
fails it returns the write error, and when the write succeeds it still
returns a fresh error carrying the reply's message. -/
theorem sendTCPError_writes_envelope_never_succeeds (env : Env) (id : String)
    (reply : ErrorReply) :
    (sendTCPError env id reply).1 = Msg.resp ⟨id, "2.0", some reply, none⟩ ∧
    ((sendTCPError env id reply).2).isSome = true ∧
    (∀ e, env.encode (Msg.resp ⟨id, "2.0", some reply, none⟩) = some e →
      (sendTCPError env id reply).2 = some e) ∧
    (env.encode (Msg.resp ⟨id, "2.0", some reply, none⟩) = none →
      (sendTCPError env id reply).2 = some ⟨reply.message⟩) := by
  unfold sendTCPError
  cases h : env.encode (Msg.resp ⟨id, "2.0", some reply, none⟩) with
  | some e => simp [h]
  | none => simp [h]

/-- C1 counterexample: a session handling one line that decodes to an
unknown method ("eth_foo"), with every transport write succeeding. The
error envelope is sent, but the handler returns a non-nil error (the
reply's message), so the session handler terminates and the admission
loop removes the session and closes the connection: handling an unknown
method is session-fatal, contradicting the claim. -/
theorem unknown_method_counterexample :
    handleTCPClient envUnknown csW [ReadEvent.line "ab"] =
      ⟨[Action.setDeadline, Action.setDeadline,
          Action.send (Msg.resp ⟨"1", "2.0", some ⟨-3, "Method not found"⟩, none⟩)],
        some ⟨"Method not found"⟩, 1⟩ ∧
    loopClosesConn (handleTCPClient envUnknown csW [ReadEvent.line "ab"]).ret = true ∧
    loopRemovesSession (handleTCPClient envUnknown csW [ReadEvent.line "ab"]).ret = true := by
  exact ⟨rfl, rfl, rfl⟩

/-- C1 as amended: for every request whose method is none of the five
known names, the handler does send the JSON-RPC error envelope built by
the unknown-method handler, but the dispatch always returns a non-nil
error (because `sendTCPError` never returns success), so an unknown
method is session-fatal: the handler terminates and the admission loop
removes the session and closes the connection. -/
theorem unknown_method_sends_error_but_is_fatal (env : Env) (cs : Session) (req : StratumReq)
    (h1 : req.method ≠ "eth_submitLogin") (h2 : req.method ≠ "eth_login")
    (h3 : req.method ≠ "eth_getWork") (h4 : req.method ≠ "eth_submitWork")
    (h5 : req.method ≠ "eth_submitHashrate") :
    (handleTCPMessage env cs req).1 = cs ∧
    (handleTCPMessage env cs req).2.1 =
      [Msg.resp ⟨req.id, "2.0", some (env.handleUnknownRPC cs req.method), none⟩] ∧
    ((handleTCPMessage env cs req).2.2).isSome = true ∧
    loopClosesConn (handleTCPMessage env cs req).2.2 = true ∧
    loopRemovesSession (handleTCPMessage env cs req).2.2 = true := by
  have key : handleTCPMessage env cs req =
      (cs, [(sendTCPError env req.id (env.handleUnknownRPC cs req.method)).1],
        (sendTCPError env req.id (env.handleUnknownRPC cs req.method)).2) := by
    unfold handleTCPMessage
    split <;> simp_all
  rw [key]
  have hsend := sendTCPError_eval env req.id (env.handleUnknownRPC cs req.method)
  refine ⟨rfl, by rw [hsend.1], hsend.2, ?_, ?_⟩
  · unfold loopClosesConn; exact hsend.2
  · unfold loopRemovesSession; exact hsend.2

/-- C1 witness: the amended theorem evaluated on the concrete
unknown-method request. -/
theorem unknown_method_fatal_witness :
    (handleTCPMessage envUnknown csW reqUnknown).1 = csW ∧
    (handleTCPMessage envUnknown csW reqUnknown).2.1 =
      [Msg.resp ⟨"1", "2.0", some ⟨-3, "Method not found"⟩, none⟩] ∧
    ((handleTCPMessage envUnknown csW reqUnknown).2.2).isSome = true ∧
    loopClosesConn (handleTCPMessage envUnknown csW reqUnknown).2.2 = true ∧
    loopRemovesSession (handleTCPMessage envUnknown csW reqUnknown).2.2 = true := by
  have h := unknown_method_sends_error_but_is_fatal envUnknown csW reqUnknown
    (by decide) (by decide) (by decide) (by decide) (by decide)
  exact h

/-- C2 counterexample: a line that decodes as a Request whose method is
`eth_submitLogin` but whose `params` payload fails to decode as a string
array. The session closes with an error and no Response is written, but
`ApplyMalformedPolicy` is invoked zero times — not exactly once as the
claim states (the parameter-decode path only logs, `stratum.go` lines
111-114). -/
theorem param_decode_counterexample :
    handleTCPClient envBadParams csW [ReadEvent.line "ab"] =
      ⟨[Action.setDeadline, Action.setDeadline], some ⟨"cannot unmarshal"⟩, 1⟩ ∧
    ((handleTCPClient envBadParams csW [ReadEvent.line "ab"]).trace.count
      (Action.applyMalformed csW.ip) = 0) ∧
    ((handleTCPClient envBadParams csW [ReadEvent.line "ab"]).trace.countP isSendAction = 0) ∧
    (handleTCPClient envBadParams csW [ReadEvent.line "ab"]).ret.isSome = true := by
  refine ⟨rfl, ?_, ?_, rfl⟩ <;> decide

/-- C2 as amended: every non-trivial line at or under the size bound
that fails decoding closes the session with an error and writes no
Response for that line; `ApplyMalformedPolicy` is invoked exactly once
when the line itself fails to decode as a Request, but it is NOT
invoked when the method-specific parameters of
`eth_submitLogin`/`eth_login`/`eth_submitWork` fail to decode (that
path only logs and returns the error). -/
theorem decode_failure_closes_session (env : Env) (cs : Session) (data : String)
    (rest : List ReadEvent) (hlen : data.length > 1) :
    (∀ e, env.unmarshalReq data = Except.error e →
      clientLoop env cs (ReadEvent.line data :: rest) =
        ⟨[Action.applyMalformed cs.ip], some e, 1⟩) ∧
    (∀ req e, env.unmarshalReq data = Except.ok req →
      (req.method = "eth_submitLogin" ∨ req.method = "eth_login" ∨
        req.method = "eth_submitWork") →
      env.unmarshalStrings req.params = Except.error e →
      clientLoop env cs (ReadEvent.line data :: rest) =
        ⟨[Action.setDeadline], some e, 1⟩) := by
  constructor
  · intro e he
    simp [clientLoop, step, hlen, he]
  · intro req e hreq hmethod hps
    have hmsg : handleTCPMessage env cs req = (cs, [], some e) := by
      unfold handleTCPMessage
      rcases hmethod with hm | hm | hm <;> rw [hm] <;> simp [hps]
    simp [clientLoop, step, hlen, hreq, hmsg]

/-- C2 witness: the amended theorem evaluated on both decode-failure
shapes — a malformed parameter payload (no `ApplyMalformedPolicy`
call) and a line that is not a Request (one `ApplyMalformedPolicy`
call). -/
theorem decode_failure_closes_session_witness :
    clientLoop envBadParams csW [ReadEvent.line "ab"] =
      ⟨[Action.setDeadline], some ⟨"cannot unmarshal"⟩, 1⟩ ∧
    clientLoop envBase csW [ReadEvent.line "ab"] =
      ⟨[Action.applyMalformed "203.0.113.7"], some ⟨"invalid character"⟩, 1⟩ := by
  have h1 := decode_failure_closes_session envBadParams csW "ab" [] (by decide)
  have h2 := decode_failure_closes_session envBase csW "ab" [] (by decide)
  exact ⟨h1.2 reqBadLogin ⟨"cannot unmarshal"⟩ rfl (Or.inl rfl) rfl,
    h2.1 ⟨"invalid character"⟩ rfl⟩

/-- C8: `eth_submitHashrate` replies with exactly
`{id: request id, version "2.0", error: null, result: true}`, delegates
to no RPC handler (the dispatch result depends on no oracle but the
encoder: any environment with the same encoder produces the same
result) and never mutates the session, so repeating it — including on
the session state it returns — always yields this same reply. -/
theorem submitHashrate_pure_reply_idempotent (env env2 : Env) (cs : Session)
    (req : StratumReq) (h : req.method = "eth_submitHashrate")
    (henc : env2.encode = env.encode) :
    handleTCPMessage env cs req =
      (cs, [Msg.resp ⟨req.id, "2.0", none, some (JsonVal.bool true)⟩],
        env.encode (Msg.resp ⟨req.id, "2.0", none, some (JsonVal.bool true)⟩)) ∧
    handleTCPMessage env2 cs req = handleTCPMessage env cs req ∧
    handleTCPMessage env (handleTCPMessage env cs req).1 req =
      handleTCPMessage env cs req := by
  have key : ∀ e : Env, e.encode = env.encode → handleTCPMessage e cs req =
      (cs, [Msg.resp ⟨req.id, "2.0", none, some (JsonVal.bool true)⟩],
        env.encode (Msg.resp ⟨req.id, "2.0", none, some (JsonVal.bool true)⟩)) := by
    intro e he
    unfold handleTCPMessage
    rw [h]
    simp [sendTCPResult, he]
  have h1 := key env rfl
  refine ⟨h1, by rw [key env2 henc, h1], ?_⟩
  rw [h1]
  exact h1

/-- C8 witness: the theorem evaluated on the concrete
`eth_submitHashrate` request, against two environments that differ in
every oracle but the encoder. -/
theorem submitHashrate_witness :
    handleTCPMessage envOk csW reqHashrate =
      (csW, [Msg.resp ⟨"1", "2.0", none, some (JsonVal.bool true)⟩], none) ∧
    handleTCPMessage envAlt csW reqHashrate = handleTCPMessage envOk csW reqHashrate ∧
    handleTCPMessage envOk (handleTCPMessage envOk csW reqHashrate).1 reqHashrate =
      handleTCPMessage envOk csW reqHashrate := by
  have h := submitHashrate_pure_reply_idempotent envOk envAlt csW reqHashrate rfl rfl
  exact ⟨h.1, h.2.1, h.2.2⟩

/-- C6: for every request with method `eth_submitLogin`, `eth_login`,
`eth_getWork` or `eth_submitWork` whose parameters decode (where
required), dispatch hands the encoder exactly one Response whose `id`
is the request's raw identifier echoed verbatim and whose version is
"2.0": a result envelope (`error: null`, some result) when the handler
succeeds, an error envelope (some error, no result) when it fails. -/
theorem dispatch_one_response_echoes_id (env : Env) (cs : Session) (req : StratumReq)
    (hm : req.method = "eth_submitLogin" ∨ req.method = "eth_login" ∨
      req.method = "eth_getWork" ∨ req.method = "eth_submitWork")
    (hp : req.method = "eth_getWork" ∨
      ∃ ps, env.unmarshalStrings req.params = Except.ok ps) :
    ∃ r : JSONRpcResp, (handleTCPMessage env cs req).2.1 = [Msg.resp r] ∧
      r.id = req.id ∧ r.version = "2.0" ∧
      ((r.error = none ∧ ∃ v, r.result = some v) ∨
        (∃ er, r.error = some er ∧ r.result = none)) := by
  have herr : ∀ er : ErrorReply,
      ∃ r : JSONRpcResp, [(sendTCPError env req.id er).1] = [Msg.resp r] ∧
        r.id = req.id ∧ r.version = "2.0" ∧
        ((r.error = none ∧ ∃ v, r.result = some v) ∨
          (∃ er2, r.error = some er2 ∧ r.result = none)) := by
    intro er
    refine ⟨⟨req.id, "2.0", some er, none⟩, ?_, rfl, rfl, Or.inr ⟨er, rfl, rfl⟩⟩
    rw [(sendTCPError_eval env req.id er).1]
  have hres : ∀ v : JsonVal,
      ∃ r : JSONRpcResp, [(sendTCPResult env req.id v).1] = [Msg.resp r] ∧
        r.id = req.id ∧ r.version = "2.0" ∧
        ((r.error = none ∧ ∃ v2, r.result = some v2) ∨
          (∃ er2, r.error = some er2 ∧ r.result = none)) := by
    intro v
    exact ⟨⟨req.id, "2.0", none, some v⟩, rfl, rfl, rfl, Or.inl ⟨rfl, v, rfl⟩⟩
  rcases hm with hm | hm | hm | hm
  · rcases hp with hg | ⟨ps, hps⟩
    · rw [hm] at hg; exact absurd hg (by decide)
    · unfold handleTCPMessage
      rw [hm]
      rcases hlr : env.handleLoginRPC cs ps req.worker with ⟨cs2, res⟩
      cases res with
      | error er => simpa [hps, hlr] using herr er
      | ok v => simpa [hps, hlr] using hres v
  · rcases hp with hg | ⟨ps, hps⟩
    · rw [hm] at hg; exact absurd hg (by decide)
    · unfold handleTCPMessage
      rw [hm]
      rcases hlr : env.handleLoginRPC cs ps req.worker with ⟨cs2, res⟩
      cases res with
      | error er => simpa [hps, hlr] using herr er
      | ok v => simpa [hps, hlr] using hres v
  · unfold handleTCPMessage
    rw [hm]
    rcases hgw : env.handleGetWorkRPC cs with ⟨cs2, res⟩
    cases res with
    | error er => simpa [hgw] using herr er
    | ok v => simpa [hgw] using hres v
  · rcases hp with hg | ⟨ps, hps⟩
    · rw [hm] at hg; exact absurd hg (by decide)
    · unfold handleTCPMessage
      rw [hm]
      rcases hsw : env.handleTCPSubmitRPC cs req.worker ps with ⟨cs2, res⟩
      cases res with
      | error er => simpa [hps, hsw] using herr er
      | ok v => simpa [hps, hsw] using hres v

/-- C6 witness: the theorem evaluated on a concrete well-formed login
request. -/
theorem dispatch_one_response_witness :
    ∃ r : JSONRpcResp, (handleTCPMessage envOk csW reqLogin).2.1 = [Msg.resp r] ∧
      r.id = "7" ∧ r.version = "2.0" ∧
      ((r.error = none ∧ ∃ v, r.result = some v) ∨
        (∃ er, r.error = some er ∧ r.result = none)) := by
  have h := dispatch_one_response_echoes_id envOk csW reqLogin
    (Or.inl rfl) (Or.inr ⟨["0xabc"], rfl⟩)
  exact h

/-- C4: when a broadcast cycle runs (a template with a non-empty header
and the service not sick), every session of the snapshot whose push
fails is absent from the endpoint's registry afterwards with its
deadline untouched, and every session whose push succeeds stays a
member and has its deadline renewed to `now + timeout`, strictly later
than its previous deadline. -/
theorem broadcast_invariant (t : BTemplate) (sick : Bool) (diff : String)
    (encodeOf : SessionRef → Msg → Option GoErr) (now timeout : Nat)
    (reg : List SessionRef) (dl : SessionRef → Nat) (m : SessionRef)
    (hrun : broadcastRuns (some t) sick) (hm : m ∈ reg)
    (hdl : dl m < now + timeout) :
    ((bcastPush encodeOf (JsonVal.strs [t.header, t.seed, diff]) m).isSome →
      m ∉ (broadcastNewJobs (some t) sick diff encodeOf now timeout reg dl).1 ∧
      (broadcastNewJobs (some t) sick diff encodeOf now timeout reg dl).2 m = dl m) ∧
    (bcastPush encodeOf (JsonVal.strs [t.header, t.seed, diff]) m = none →
      m ∈ (broadcastNewJobs (some t) sick diff encodeOf now timeout reg dl).1 ∧
      dl m < (broadcastNewJobs (some t) sick diff encodeOf now timeout reg dl).2 m ∧
      (broadcastNewJobs (some t) sick diff encodeOf now timeout reg dl).2 m
        = now + timeout) := by
  obtain ⟨t2, ht2, hh, hs⟩ := hrun
  have ht : t2 = t := (Option.some.injEq t2 t).mp ht2.symm
  rw [ht] at hh
  have hbc : broadcastNewJobs (some t) sick diff encodeOf now timeout reg dl =
      reg.foldl
        (bcastStep (bcastPush encodeOf (JsonVal.strs [t.header, t.seed, diff])) now timeout)
        (reg, dl) := by
    rw [hs]
    simp [broadcastNewJobs, hh]
  rw [hbc]
  constructor
  · intro herr
    exact ⟨bcast_not_mem_of_err _ now timeout reg (reg, dl) m herr hm,
      bcast_dl_of_err _ now timeout reg (reg, dl) m herr⟩
  · intro hok
    have hdl2 := bcast_dl_of_ok
      (bcastPush encodeOf (JsonVal.strs [t.header, t.seed, diff])) now timeout
      reg (reg, dl) m hok hm
    exact ⟨bcast_mem_of_ok _ now timeout reg (reg, dl) m hok hm,
      by rw [hdl2]; exact hdl, hdl2⟩

/-- C4 witness: a two-member snapshot where session 1's transport is
broken and session 0's works: session 1 is removed with its deadline
untouched, session 0 stays with a strictly later deadline. -/
theorem broadcast_invariant_witness :
    (SessionRef.mk 1 0 ∉
      (broadcastNewJobs (some ⟨"0xhead", "0xseed"⟩) false "100" encW 10 3 regW dlW).1 ∧
      (broadcastNewJobs (some ⟨"0xhead", "0xseed"⟩) false "100" encW 10 3 regW dlW).2
        ⟨1, 0⟩ = 5) ∧
    (SessionRef.mk 0 0 ∈
      (broadcastNewJobs (some ⟨"0xhead", "0xseed"⟩) false "100" encW 10 3 regW dlW).1 ∧
      5 < (broadcastNewJobs (some ⟨"0xhead", "0xseed"⟩) false "100" encW 10 3 regW dlW).2
        ⟨0, 0⟩ ∧
      (broadcastNewJobs (some ⟨"0xhead", "0xseed"⟩) false "100" encW 10 3 regW dlW).2
        ⟨0, 0⟩ = 10 + 3) := by
  have h1 := broadcast_invariant ⟨"0xhead", "0xseed"⟩ false "100" encW 10 3 regW dlW
    ⟨1, 0⟩ ⟨⟨"0xhead", "0xseed"⟩, rfl, by decide, rfl⟩ (by decide) (by decide)
  have h0 := broadcast_invariant ⟨"0xhead", "0xseed"⟩ false "100" encW 10 3 regW dlW
    ⟨0, 0⟩ ⟨⟨"0xhead", "0xseed"⟩, rfl, by decide, rfl⟩ (by decide) (by decide)
  exact ⟨h1.1 (by decide), h0.2 (by decide)⟩

/-- C9: the deadline is renewed at exactly the specified points: the
trace of a session handler starts with the accept-time renewal; one
loop iteration contains exactly one renewal when its line is longer
than one byte and decodes as a Request (and then the renewal precedes
the dispatch's writes), and no renewal on any other read outcome
(short lines, undecodable lines, flood, EOF, read errors); and a
broadcast changes a session's deadline only on a successful push to a
snapshot member, setting it to `now + timeout`. -/
theorem deadline_renewal_points (env : Env) (cs : Session) (evs : List ReadEvent)
    (ev : ReadEvent) (data : String) (req : StratumReq) (t : BTemplate) (sick : Bool)
    (diff : String) (encodeOf : SessionRef → Msg → Option GoErr) (now timeout : Nat)
    (reg : List SessionRef) (dl : SessionRef → Nat) (x : SessionRef) :
    ((handleTCPClient env cs evs).trace.head? = some Action.setDeadline) ∧
    ((stepActs env cs ev).count Action.setDeadline
      = if renewsDeadline env ev then 1 else 0) ∧
    (env.unmarshalReq data = Except.ok req → data.length > 1 →
      stepActs env cs (ReadEvent.line data) =
        Action.setDeadline :: (handleTCPMessage env cs req).2.1.map Action.send) ∧
    ((broadcastNewJobs (some t) sick diff encodeOf now timeout reg dl).2 x ≠ dl x →
      bcastPush encodeOf (JsonVal.strs [t.header, t.seed, diff]) x = none ∧ x ∈ reg ∧
      (broadcastNewJobs (some t) sick diff encodeOf now timeout reg dl).2 x
        = now + timeout) := by
  have hsend0 : ∀ msgs : List Msg,
      (msgs.map Action.send).count Action.setDeadline = 0 := by
    intro msgs
    rw [List.count_eq_zero]
    intro hmem
    rcases List.mem_map.mp hmem with ⟨m, _, hma⟩
    exact Action.noConfusion hma
  refine ⟨rfl, ?_, ?_, ?_⟩
  · cases ev with
    | flood => rfl
    | eof => rfl
    | readErr e => rfl
    | line data2 =>
      by_cases hlen : data2.length > 1
      · cases hu : env.unmarshalReq data2 with
        | error e => simp [stepActs, step, renewsDeadline, hlen, hu]
        | ok req2 =>
          rcases hh : handleTCPMessage env cs req2 with ⟨cs2, msgs, ret⟩
          cases ret with
          | some e =>
            simp only [stepActs, step, renewsDeadline, if_pos hlen, hu, hh]
            simp [List.count_cons, hsend0 msgs]
          | none =>
            simp only [stepActs, step, renewsDeadline, if_pos hlen, hu, hh]
            simp [List.count_cons, hsend0 msgs]
      · simp [stepActs, step, renewsDeadline, hlen]
  · intro hu hlen
    rcases hh : handleTCPMessage env cs req with ⟨cs2, msgs, ret⟩
    cases ret with
    | some e => simp [stepActs, step, if_pos hlen, hu, hh]
    | none => simp [stepActs, step, if_pos hlen, hu, hh]
  · intro hch
    by_cases hc : t.header = "" ∨ sick = true
    · exfalso
      apply hch
      simp [broadcastNewJobs, hc]
    · have hbc : broadcastNewJobs (some t) sick diff encodeOf now timeout reg dl =
          reg.foldl
            (bcastStep (bcastPush encodeOf (JsonVal.strs [t.header, t.seed, diff]))
              now timeout) (reg, dl) := by
        simp [broadcastNewJobs, hc]
      rw [hbc] at hch ⊢
      exact bcast_dl_changed _ now timeout reg (reg, dl) x hch

end Stratum
